import Mathlib

/-!
Verification development for the process-management core of the fulcrum
desktop platform (process registry, scanner, port resolver, termination
controller).  The definitions below are a shallow embedding of the
TypeScript module in src/unnamed/part_002 (ProcessRegistry, killProcess,
killDockerContainer, scanDockerContainers, getPortMappings consumers,
getChildPorts, scanProjectProcesses) and of the get-project-processes
request handler.  External effects (the OS process table, the port-listener
table, the container runtime, signal delivery and the deferred escalation
timer) are modelled as explicit inputs and as recorded effect traces.
Machine arithmetic (the JS 32-bit shift in the container-id hash) is
modelled on Int with explicit reduction mod 2^32.
-/

set_option maxRecDepth 6000

namespace Fulcrum

/-- Process type enum from shared/types: editor or terminal. -/
inductive ProcessType where
  | editor
  | terminal
deriving DecidableEq

/-- The ProcessInfo record (TrackedProcess of the spec).  Timestamps are
naturals (milliseconds); the port field is absent (none) when no port was
resolved, mirroring the optional field. -/
structure ProcessInfo where
  pid : Nat
  projectPath : String
  projectName : String
  type : ProcessType
  command : String
  launchTime : Nat
  port : Option Nat
deriving DecidableEq

/-- One row of the OS process table as returned by psList: pid, parent
pid, process name, and command line.  A missing or empty command line is
modelled as the empty string (both are falsy in the source). -/
structure OsProc where
  pid : Nat
  ppid : Nat
  name : String
  cmd : String
deriving DecidableEq

/-- Prefix test on character lists: does the first list start with the
second?  Used to embed the JS String.prototype.includes substring test. -/
def charsStartWith : List Char → List Char → Bool
  | _, [] => true
  | [], _ :: _ => false
  | a :: as, b :: bs => a == b && charsStartWith as bs

/-- Does the first character list contain the second as a contiguous
sublist?  Embeds JS includes (true on the empty pattern). -/
def charsContain : List Char → List Char → Bool
  | [], sub => charsStartWith [] sub
  | a :: t, sub => charsStartWith (a :: t) sub || charsContain t sub

/-- JS s.includes(sub): substring containment. -/
def strIncludes (s sub : String) : Bool := charsContain s.data sub.data

/-- JS s.startsWith(p), computed on the character lists. -/
def strStartsWith (s p : String) : Bool := charsStartWith s.data p.data

/-- JS toLowerCase, restricted to the per-character lowering that is exact
for the ASCII pattern strings the scanner uses. -/
def strToLower (s : String) : String := ⟨s.data.map Char.toLower⟩

/-- ToInt32: reduce an integer to the 32-bit signed range, as JS does to
the operand and result of the << operator. -/
def toInt32 (x : Int) : Int :=
  let r := x % 4294967296
  if r < 2147483648 then r else r - 4294967296

/-- The container pseudo-pid hash exactly as written in
scanDockerContainers:
Math.abs(container.ID.split('').reduce((acc, char) => ((acc << 5) - acc) + char.charCodeAt(0), 0)).
Only the shift coerces to 32 bits; the subtraction and addition are exact
double arithmetic (exact integers at these magnitudes).  Characters are
modelled by their code points, which agree with JS charCodeAt on the
ASCII (hex) container identifiers. -/
def scanContainerPseudoPid (s : String) : Nat :=
  (s.data.foldl (fun acc ch => toInt32 (toInt32 acc * 32) - acc + ch.toNat) 0).natAbs

/-- The pseudo-pid hash exactly as written a second time in
killDockerContainer, kept as a separate definition so that the
scan/kill agreement is a theorem about the two code sites. -/
def killContainerPseudoPid (s : String) : Nat :=
  (s.data.foldl (fun acc ch => toInt32 (toInt32 acc * 32) - acc + ch.toNat) 0).natAbs

/-- The port-listener map built once per scan by getPortMappings:
pid to list of listening ports, modelled as an association list with the
unique keys a JS Map guarantees. -/
abbrev PortMap := List (Nat × List Nat)

/-- Map.get on the port map (none when the key is absent). -/
def pmLookup (pm : PortMap) (pid : Nat) : Option (List Nat) :=
  (pm.find? (fun kv => kv.1 == pid)).map (·.2)

/-- JS word character class, as used by the regex word-boundary assertion:
[A-Za-z0-9_]. -/
def isWordChar (c : Char) : Bool := c.isAlpha || c.isDigit || c == '_'

/-- The regex word-boundary assertion placed after a digit: the next
character, if any, is not a word character. -/
def wordBoundaryAfter : List Char → Bool
  | [] => true
  | c :: _ => !isWordChar c

/-- parseInt on a list of decimal digit characters. -/
def digitsToNat (ds : List Char) : Nat :=
  ds.foldl (fun n c => 10 * n + (c.toNat - 48)) 0

/-- Attempt to match the source regex /:(\d{4,5})\b/ at the head of the
list: a colon, then greedily five digits (else, backtracking, four) and a
word boundary.  When six or more digits follow the colon both the
five-digit and the four-digit attempt see a digit at the boundary and the
match fails, exactly as under the regex backtracking semantics. -/
def matchPortAt : List Char → Option Nat
  | ':' :: rest =>
    let ds := rest.takeWhile Char.isDigit
    if 5 ≤ ds.length && wordBoundaryAfter (rest.drop 5) then
      some (digitsToNat (ds.take 5))
    else if 4 ≤ ds.length && wordBoundaryAfter (rest.drop 4) then
      some (digitsToNat (ds.take 4))
    else none
  | _ => none

/-- Leftmost match of /:(\d{4,5})\b/ over the whole string, as
String.prototype.match scans. -/
def findCmdPort : List Char → Option Nat
  | [] => none
  | a :: t => (matchPortAt (a :: t)).orElse (fun _ => findCmdPort t)

/-- cmd.match(/:(\d{4,5})\b/) followed by parseInt of the group. -/
def extractCmdPort (s : String) : Option Nat := findCmdPort s.data

/-- getChildPorts: depth-first collection of the listener-map ports of all
descendants (children in table order, each child's own ports before its
grandchildren).  The source recursion has no explicit bound and
terminates because OS process trees are acyclic; the fuel parameter makes
that termination explicit and is instantiated with the table length, an
upper bound on the depth of any acyclic parent-pid chain. -/
def getChildPorts (fuel : Nat) (table : List OsProc) (parentPid : Nat) (pm : PortMap) : List Nat :=
  match fuel with
  | 0 => []
  | fuel + 1 =>
    (table.filter (fun p => p.ppid == parentPid)).flatMap
      (fun child => ((pmLookup pm child.pid).getD []) ++ getChildPorts fuel table child.pid pm)

/-- JS falsiness of the port value accumulated in scanProjectProcesses:
undefined (none) and 0 are falsy. -/
def isFalsyPort : Option Nat → Bool
  | none => true
  | some 0 => true
  | some (_ + 1) => false

/-- The port-resolution block of the scanProjectProcesses loop body:
1. the first /:(\d{4,5})\b/ match of the candidate's own command line;
2. if the result so far is falsy and the listener map has the pid, the
   first entry of its port list;
3. if still falsy, the first descendant port found by getChildPorts, when
   any exists. -/
def resolvePort (table : List OsProc) (pm : PortMap) (proc : OsProc) : Option Nat :=
  let port1 := if proc.cmd ≠ "" then extractCmdPort proc.cmd else none
  let port2 :=
    if isFalsyPort port1 && (pmLookup pm proc.pid).isSome then
      ((pmLookup pm proc.pid).getD []).head?
    else port1
  if isFalsyPort port2 then
    let childPorts := getChildPorts table.length table proc.pid pm
    if childPorts.length > 0 then childPorts.head? else port2
  else port2

/-- The development-server patterns of scanProjectProcesses. -/
def devServerPatterns : List String :=
  ["node", "npm", "yarn", "pnpm", "next", "vite", "webpack",
   "react-scripts", "vue-cli-service", "ng serve"]

/-- The editor binary name patterns of scanProjectProcesses. -/
def editorPatterns : List String :=
  ["code", "cursor", "antigravity", "subl", "atom", "vim", "nvim", "emacs"]

/-- isDevServer: some pattern occurs in the lowercased process name, or
(when the command line is non-empty) in the lowercased command line. -/
def isDevServer (proc : OsProc) : Bool :=
  devServerPatterns.any (fun pat =>
    strIncludes (strToLower proc.name) pat ||
    (proc.cmd ≠ "" && strIncludes (strToLower proc.cmd) pat))

/-- Editor classification: only the process name is consulted, to avoid
incidental substring matches in the full command. -/
def scanType (proc : OsProc) : ProcessType :=
  if editorPatterns.any (fun pat => strIncludes (strToLower proc.name) pat)
  then ProcessType.editor else ProcessType.terminal

/-- The displayed command: the command line truncated to 100 characters
with an ellipsis when longer, the process name when the command line is
empty. -/
def truncCommand (proc : OsProc) : String :=
  if proc.cmd ≠ "" && decide (proc.cmd.length > 100) then
    String.mk (proc.cmd.data.take 100) ++ "..."
  else if proc.cmd ≠ "" then proc.cmd else proc.name

/-- The candidate test of the scan loop: a non-empty command line that
contains the project path, and a development-tool pattern match. -/
def isCandidate (projectPath : String) (proc : OsProc) : Bool :=
  proc.cmd ≠ "" && strIncludes proc.cmd projectPath && isDevServer proc

/-- The ProcessInfo record pushed for one accepted candidate. -/
def mkScanEntry (projectPath projectName : String) (table : List OsProc) (pm : PortMap)
    (now : Nat) (proc : OsProc) : ProcessInfo :=
  { pid := proc.pid
    projectPath := projectPath
    projectName := projectName
    type := scanType proc
    command := truncCommand proc
    launchTime := now
    port := resolvePort table pm proc }

/-- One running container as parsed from the docker ps / docker inspect
output: identifier, display name, image, the non-empty mount source
paths, and the published host ports in binding order.  Records whose
JSON failed to parse or whose inspect call failed are skipped by the
source and are therefore simply absent from this list. -/
structure DockerContainer where
  id : String
  names : String
  image : String
  mountSources : List String
  hostPorts : List Nat
deriving DecidableEq

/-- Mount correlation: some mount source is non-empty (JS truthiness
guard) and starts with the project path. -/
def hasProjectMount (projectPath : String) (c : DockerContainer) : Bool :=
  c.mountSources.any (fun src => src ≠ "" && strStartsWith src projectPath)

/-- scanDockerContainers: empty when docker is unavailable; otherwise one
ProcessInfo per running container with a project mount, carrying the
hashed pseudo-pid, terminal type, a "docker: name (image)" command, the
scan time, and the first published host port if any. -/
def scanDockerContainers (dockerAvailable : Bool) (containers : List DockerContainer)
    (projectPath projectName : String) (now : Nat) : List ProcessInfo :=
  if !dockerAvailable then [] else
  containers.filterMap (fun c =>
    if hasProjectMount projectPath c then
      some { pid := scanContainerPseudoPid c.id
             projectPath := projectPath
             projectName := projectName
             type := ProcessType.terminal
             command := "docker: " ++ c.names ++ " (" ++ c.image ++ ")"
             launchTime := now
             port := c.hostPorts.head? }
    else none)

/-- scanProjectProcesses: the accepted candidates of the process table in
table order, followed by the container results.  No de-duplication is
performed here. -/
def scanProjectProcesses (table : List OsProc) (pm : PortMap)
    (dockerAvailable : Bool) (containers : List DockerContainer)
    (projectPath projectName : String) (now : Nat) : List ProcessInfo :=
  (table.filter (isCandidate projectPath)).map (mkScanEntry projectPath projectName table pm now)
    ++ scanDockerContainers dockerAvailable containers projectPath projectName now

/-- The in-memory registry map: Map from pid to ProcessInfo, modelled as an
insertion-ordered association list with unique keys, matching JS Map
semantics. -/
abbrev RegMap := List (Nat × ProcessInfo)

/-- Map.has. -/
def mapHas (m : RegMap) (k : Nat) : Bool := m.any (fun kv => kv.1 == k)

/-- Map.set: replace in place when the key exists, else append. -/
def mapSet (m : RegMap) (k : Nat) (v : ProcessInfo) : RegMap :=
  if mapHas m k then m.map (fun kv => if kv.1 == k then (k, v) else kv)
  else m ++ [(k, v)]

/-- Array.from(map.values()): the values in insertion order. -/
def mapValues (m : RegMap) : List ProcessInfo := m.map (·.2)

/-- isProcessAlive: psList().some(p => p.pid === pid).  The psList failure
branch (catch returning false) corresponds to an empty table. -/
def isProcessAlive (table : List OsProc) (pid : Nat) : Bool :=
  table.any (fun p => p.pid == pid)

/-- The registry state: the in-memory map together with the persisted
processes array of the electron store. -/
structure RegState where
  mem : RegMap
  store : List ProcessInfo
deriving DecidableEq

/-- persist(): store.set('processes', Array.from(this.processes.values())). -/
def persist (m : RegMap) : List ProcessInfo := mapValues m

/-- The ProcessRegistry constructor with cleanupDeadProcesses: starting
from an empty map, each stored entry whose pid is alive in the OS table
is set into the map (in stored order), then the map is persisted. -/
def registryInit (table : List OsProc) (stored : List ProcessInfo) : RegState :=
  let mem := stored.foldl
    (fun m p => if isProcessAlive table p.pid then mapSet m p.pid p else m) []
  { mem := mem, store := persist mem }

/-- register: set by pid, persist. -/
def register (st : RegState) (info : ProcessInfo) : RegState :=
  let m := mapSet st.mem info.pid info
  { mem := m, store := persist m }

/-- unregister: if (this.processes.delete(pid)) { this.persist() }.  The
delete succeeds exactly when the key is present; when it is absent
neither the map nor the store is touched.  The function is total: the
source never throws on this path. -/
def unregister (st : RegState) (pid : Nat) : RegState :=
  if mapHas st.mem pid then
    let m := st.mem.filter (fun kv => kv.1 ≠ pid)
    { mem := m, store := persist m }
  else st

/-- getByProject: the values whose projectPath matches. -/
def getByProject (st : RegState) (projectPath : String) : List ProcessInfo :=
  (mapValues st.mem).filter (fun p => p.projectPath == projectPath)

/-- The get-project-processes request handler: live registry entries for
the project, followed by the scanned entries whose pid does not collide
with a live registry entry. -/
def getProjectProcesses (st : RegState) (table : List OsProc) (pm : PortMap)
    (dockerAvailable : Bool) (containers : List DockerContainer)
    (projectPath projectName : String) (now : Nat) : List ProcessInfo :=
  let tracked := getByProject st projectPath
  let aliveTracked := tracked.filter (fun p => isProcessAlive table p.pid)
  let scanned := scanProjectProcesses table pm dockerAvailable containers projectPath projectName now
  let trackedPids := aliveTracked.map (·.pid)
  aliveTracked ++ scanned.filter (fun p => !(trackedPids.contains p.pid))

/-- OS signals used by the termination controller. -/
inductive Signal where
  | sigterm
  | sigkill
deriving DecidableEq

/-- The external world a kill request runs against: whether docker ps
succeeds, the running containers it lists, whether docker stop succeeds
for a given container id, whether process.kill succeeds for a given pid
and signal (false models the ESRCH/EPERM throw), and the liveness answer
the deferred escalation check will observe after its delay. -/
structure KillWorld where
  psOk : Bool
  containers : List DockerContainer
  stopOk : String → Bool
  sendOk : Nat → Signal → Bool
  aliveAfterDelay : Nat → Bool

/-- The loop of killDockerContainer: the first listed container whose
recomputed pseudo-pid equals the requested pid. -/
def findMatchingContainer (containers : List DockerContainer) (pid : Nat) : Option String :=
  containers.findSome? (fun c =>
    if killContainerPseudoPid c.id == pid then some c.id else none)

/-- killDockerContainer: false with no stop issued when docker ps fails or
no container matches; otherwise a docker stop is issued for the first
match, and the result is true exactly when that stop command succeeded
(a failing stop is caught and reported as false).  The second component
records the container ids a stop command was issued for. -/
def killDockerContainer (w : KillWorld) (pid : Nat) : Bool × List String :=
  if !w.psOk then (false, [])
  else
    match findMatchingContainer w.containers pid with
    | some cid => if w.stopOk cid then (true, [cid]) else (false, [cid])
    | none => (false, [])

/-- The deferred escalation scheduled by the graceful path: its setTimeout
delay in milliseconds and the signal sends its callback performs. -/
structure DeferredCheck where
  delayMs : Nat
  sends : List (Nat × Signal)
deriving DecidableEq

/-- The observable effects of one killProcess call: container stop
commands issued, immediate signal sends attempted, and the deferred
escalation check if one was scheduled. -/
structure KillEffects where
  stopped : List String
  signals : List (Nat × Signal)
  deferred : Option DeferredCheck
deriving DecidableEq

/-- killProcess: the docker path first; on a docker kill the call returns
true with no signal sent.  Otherwise force sends SIGKILL once and
reports whether the send succeeded; the default path sends SIGTERM,
schedules the 3000 ms escalation check (which sends SIGKILL exactly when
the pid is then still alive, consulting a freshly constructed registry's
liveness query) and returns true immediately, or returns false with no
escalation scheduled when the SIGTERM send threw. -/
def killProcess (w : KillWorld) (pid : Nat) (force : Bool) : Bool × KillEffects :=
  let dk := killDockerContainer w pid
  if dk.1 then (true, ⟨dk.2, [], none⟩)
  else if force then
    (w.sendOk pid Signal.sigkill, ⟨dk.2, [(pid, Signal.sigkill)], none⟩)
  else if w.sendOk pid Signal.sigterm then
    (true, ⟨dk.2, [(pid, Signal.sigterm)],
      some ⟨3000, if w.aliveAfterDelay pid then [(pid, Signal.sigkill)] else []⟩⟩)
  else (false, ⟨dk.2, [(pid, Signal.sigterm)], none⟩)

/-! ## Helper lemmas -/

/-- If some listed container hashes to the pid, the killDockerContainer
search finds a (first) matching container id. -/
theorem findMatchingContainer_isSome_of_mem {cs : List DockerContainer} {c : DockerContainer}
    (hc : c ∈ cs) {p : Nat} (hp : killContainerPseudoPid c.id = p) :
    (findMatchingContainer cs p).isSome = true := by
  induction cs with
  | nil => cases hc
  | cons a t ih =>
    unfold findMatchingContainer at *
    rw [List.findSome?_cons]
    rcases List.mem_cons.mp hc with h | h
    · subst h
      simp [hp]
    · cases hf : (if killContainerPseudoPid a.id == p then some a.id else none) with
      | some cid => simp
      | none => simpa using ih h

/-- When no listed container hashes to the pid, killDockerContainer
reports failure and issues no stop command. -/
theorem killDockerContainer_no_match (w : KillWorld) (pid : Nat)
    (h : ∀ c ∈ w.containers, killContainerPseudoPid c.id ≠ pid) :
    killDockerContainer w pid = (false, []) := by
  have hfind : findMatchingContainer w.containers pid = none := by
    unfold findMatchingContainer
    rw [List.findSome?_eq_none_iff]
    intro c hc
    simp [h c hc]
  unfold killDockerContainer
  cases hps : w.psOk <;> simp [hps, hfind]

/-- The 32-bit reduction keeps the absolute value at or below 2^31. -/
theorem toInt32_natAbs_le (x : Int) : (toInt32 x).natAbs ≤ 2147483648 := by
  have h1 : 0 ≤ x % 4294967296 := Int.emod_nonneg x (by norm_num)
  have h2 : x % 4294967296 < 4294967296 := Int.emod_lt_of_pos x (by norm_num)
  simp only [toInt32]
  split <;> omega

/-- Code points are below 0x110000. -/
theorem char_toNat_lt_bound (c : Char) : c.toNat < 1114112 := by
  rcases c.valid with h | ⟨_, h2⟩
  · exact lt_trans h (by norm_num)
  · exact h2

/-- One hash step moves the absolute value by at most 2^32. -/
theorem hashStep_natAbs_le (acc : Int) (c : Char) :
    (toInt32 (toInt32 acc * 32) - acc + (c.toNat : Int)).natAbs ≤ acc.natAbs + 4294967296 := by
  have h1 := toInt32_natAbs_le (toInt32 acc * 32)
  have h2 := char_toNat_lt_bound c
  have t1 : (toInt32 (toInt32 acc * 32) - acc + (c.toNat : Int)).natAbs
      ≤ (toInt32 (toInt32 acc * 32) - acc).natAbs + (c.toNat : Int).natAbs :=
    Int.natAbs_add_le _ _
  have t2 : (toInt32 (toInt32 acc * 32) - acc).natAbs
      ≤ (toInt32 (toInt32 acc * 32)).natAbs + acc.natAbs :=
    Int.natAbs_sub_le _ _
  have t3 : (c.toNat : Int).natAbs = c.toNat := Int.natAbs_ofNat _
  omega

/-- Evaluation of the pseudo-pid hash in four chunks, to keep each
kernel evaluation shallow: when the four partial folds produce the
stated accumulators, the hash of the concatenation is the absolute value
of the last. -/
theorem scanPid_of_chunks (c1 c2 c3 c4 : String) (v1 v2 v3 v4 : Int)
    (h1 : List.foldl (fun acc ch => toInt32 (toInt32 acc * 32) - acc + ch.toNat) 0 c1.data = v1)
    (h2 : List.foldl (fun acc ch => toInt32 (toInt32 acc * 32) - acc + ch.toNat) v1 c2.data = v2)
    (h3 : List.foldl (fun acc ch => toInt32 (toInt32 acc * 32) - acc + ch.toNat) v2 c3.data = v3)
    (h4 : List.foldl (fun acc ch => toInt32 (toInt32 acc * 32) - acc + ch.toNat) v3 c4.data = v4) :
    scanContainerPseudoPid (c1 ++ c2 ++ c3 ++ c4) = v4.natAbs := by
  simp only [scanContainerPseudoPid, String.data_append, List.foldl_append]
  rw [h1, h2, h3, h4]

/-- The folded hash accumulator is bounded by 2^32 per character. -/
theorem hashFold_natAbs_le (l : List Char) :
    ∀ acc : Int,
      (l.foldl (fun a ch => toInt32 (toInt32 a * 32) - a + ch.toNat) acc).natAbs
        ≤ acc.natAbs + l.length * 4294967296 := by
  induction l with
  | nil => intro acc; simp
  | cons c t ih =>
    intro acc
    rw [List.foldl_cons]
    have h1 := hashStep_natAbs_le acc c
    have h2 := ih (toInt32 (toInt32 acc * 32) - acc + (c.toNat : Int))
    rw [List.length_cons]
    omega

/-! ## Claims -/

/-- C5: the pseudo-pid derivation is deterministic and identical in the
scanner (scanDockerContainers) and the Termination Controller
(killDockerContainer): the two hash expressions agree on every string,
and every container entry a scan produces carries a pid that the kill
search matches back to a running container. -/
theorem C5_pseudoPid_scan_kill_agree (s : String) (avail : Bool) (cs : List DockerContainer)
    (pp pn : String) (now : Nat) (e : ProcessInfo)
    (he : e ∈ scanDockerContainers avail cs pp pn now) :
    scanContainerPseudoPid s = killContainerPseudoPid s ∧
      (findMatchingContainer cs e.pid).isSome = true := by
  refine ⟨rfl, ?_⟩
  unfold scanDockerContainers at he
  rcases hav : avail with _ | _
  · rw [hav] at he
    simp at he
  · rw [hav] at he
    simp only [Bool.not_true, Bool.false_eq_true, if_false, List.mem_filterMap] at he
    obtain ⟨c, hc, hfc⟩ := he
    by_cases hm : hasProjectMount pp c = true
    · rw [if_pos hm] at hfc
      have hpid : e.pid = scanContainerPseudoPid c.id := by
        cases hfc
        rfl
      rw [hpid]
      exact findMatchingContainer_isSome_of_mem hc rfl
    · rw [if_neg hm] at hfc
      cases hfc

/-- C5 witness: a concrete container list on which the scan entry's pid is
matched back by the kill-side search. -/
theorem C5_pseudoPid_scan_kill_agree_witness :
    scanContainerPseudoPid "deadbeef" = killContainerPseudoPid "deadbeef" ∧
      (findMatchingContainer [⟨"deadbeef", "web", "nginx", ["/w/app/data"], [8080]⟩]
        503332488).isSome = true :=
  C5_pseudoPid_scan_kill_agree "deadbeef" true
    [⟨"deadbeef", "web", "nginx", ["/w/app/data"], [8080]⟩] "/w/app" "app" 7
    ⟨503332488, "/w/app", "app", ProcessType.terminal, "docker: web (nginx)", 7, some 8080⟩
    (by decide)

/-- C10 counterexample: a 64-character hexadecimal container identifier
whose pseudo-pid exceeds 2^31.  The accumulator is only coerced to 32
bits at the shift; the subtraction and addition are exact, so the value
drifts past the 32-bit signed range before the absolute value is taken. -/
theorem C10_counterexample :
    2 ^ 31 < scanContainerPseudoPid
      ("309cad68386d070c" ++ "415ed7e70cad1946" ++ "1922995d84016e51" ++ "c6b36d6f3c9f0ac9") := by
  rw [scanPid_of_chunks "309cad68386d070c" "415ed7e70cad1946" "1922995d84016e51"
    "c6b36d6f3c9f0ac9" (-4289554919) 986590955 6349400970 5141238512
    (by decide) (by decide) (by decide) (by decide)]
  decide

/-- C10 amended: the pseudo-pid is a non-negative integer (a natural by
construction of the absolute value) bounded by 2^32 per input character,
not by 2^31; small values inside the real OS pid range remain possible
(witnessed by a 64-character hex identifier hashing below the Linux
pid_max of 4194304), so the pseudo-pid shares, and may collide with, the
real pid space. -/
theorem C10_pseudoPid_bounds (s : String) :
    scanContainerPseudoPid s ≤ s.length * 4294967296 ∧
      ∃ t : String, t.length = 64 ∧ scanContainerPseudoPid t < 4194304 := by
  constructor
  · have h := hashFold_natAbs_le s.data 0
    simp only [Int.natAbs_zero, Nat.zero_add] at h
    exact h
  · refine ⟨"0c9d95823fa1e0fe" ++ "5f88c62d467e9c54" ++ "0afcca6193202fa9" ++ "f3a85eda771ea86b",
      by decide, ?_⟩
    rw [scanPid_of_chunks "0c9d95823fa1e0fe" "5f88c62d467e9c54" "0afcca6193202fa9"
      "f3a85eda771ea86b" (-568841343) (-1700871440) (-626840709) (-1882269)
      (by decide) (by decide) (by decide) (by decide)]
    decide

/-- C1 counterexample: a pid that hashes to a currently running
container for which a stop command is issued but fails.  The failing
stop is caught inside killDockerContainer, which reports false, and
killProcess falls through to the OS signal path: SIGTERM is sent to the
container-matching pid with force unset, SIGKILL with force set — so an
OS signal IS sent for a pid that resolves to a container match,
refuting the claim's unconditional short-circuit. -/
theorem C1_counterexample :
    killContainerPseudoPid "deadbeef" = 503332488 ∧
      (killProcess ⟨true, [⟨"deadbeef", "web", "nginx", ["/w/app/data"], [8080]⟩],
          fun _ => false, fun _ _ => true, fun _ => true⟩ 503332488 false).2.signals
        = [(503332488, Signal.sigterm)] ∧
      (killProcess ⟨true, [⟨"deadbeef", "web", "nginx", ["/w/app/data"], [8080]⟩],
          fun _ => false, fun _ _ => true, fun _ => true⟩ 503332488 true).2.signals
        = [(503332488, Signal.sigkill)] := by
  decide

/-- C1 amended: when some currently running container's identifier
hashes to the requested pid AND the runtime's list and stop commands
succeed, killProcess issues exactly one container stop, returns
success, and sends no OS signal and schedules no escalation, for either
value of the force flag.  (When the stop command fails, the source falls
through to the OS signal path — see the counterexample.) -/
theorem C1_container_kill_short_circuit (w : KillWorld) (pid : Nat) (force : Bool)
    (hps : w.psOk = true)
    (hmatch : ∃ c ∈ w.containers, killContainerPseudoPid c.id = pid)
    (hstop : ∀ cid, w.stopOk cid = true) :
    (killProcess w pid force).1 = true ∧
      ∃ cid, (killProcess w pid force).2 = ⟨[cid], [], none⟩ := by
  obtain ⟨c, hc, hcp⟩ := hmatch
  have hsome : (findMatchingContainer w.containers pid).isSome = true :=
    findMatchingContainer_isSome_of_mem hc hcp
  obtain ⟨cid, hcid⟩ := Option.isSome_iff_exists.mp hsome
  have hdk : killDockerContainer w pid = (true, [cid]) := by
    unfold killDockerContainer
    rw [hps, hcid]
    simp [hstop cid]
  refine ⟨?_, cid, ?_⟩ <;> · unfold killProcess; rw [hdk]; rfl

/-- C1 witness: a concrete world with one matching container; the kill
stops it and sends no signal, with force set. -/
theorem C1_container_kill_short_circuit_witness :
    ((killProcess ⟨true, [⟨"deadbeef", "web", "nginx", ["/w/app/data"], [8080]⟩],
        fun _ => true, fun _ _ => true, fun _ => true⟩ 503332488 true).1 = true ∧
      ∃ cid, (killProcess ⟨true, [⟨"deadbeef", "web", "nginx", ["/w/app/data"], [8080]⟩],
        fun _ => true, fun _ _ => true, fun _ => true⟩ 503332488 true).2 = ⟨[cid], [], none⟩) :=
  C1_container_kill_short_circuit _ 503332488 true rfl
    ⟨⟨"deadbeef", "web", "nginx", ["/w/app/data"], [8080]⟩, by decide, by decide⟩
    (fun _ => rfl)

/-- C2: with no container match and force unset, killProcess sends
SIGTERM once and returns success immediately (the result does not depend
on the later liveness answer); it schedules the 3000 ms escalation
check, which sends SIGKILL exactly once when the pid is then still
alive and sends nothing when it is not. -/
theorem C2_graceful_escalation (w : KillWorld) (pid : Nat)
    (hno : ∀ c ∈ w.containers, killContainerPseudoPid c.id ≠ pid)
    (hsend : w.sendOk pid Signal.sigterm = true) :
    killProcess w pid false =
      (true, ⟨[], [(pid, Signal.sigterm)],
        some ⟨3000, if w.aliveAfterDelay pid then [(pid, Signal.sigkill)] else []⟩⟩) := by
  have hdk := killDockerContainer_no_match w pid hno
  unfold killProcess
  rw [hdk]
  simp [hsend]

/-- C2 witness: the same concrete pid killed in a world whose later
liveness check answers alive (SIGKILL scheduled exactly once) and in one
whose check answers dead (no SIGKILL). -/
theorem C2_graceful_escalation_witness :
    killProcess ⟨true, [], fun _ => true, fun _ _ => true, fun _ => true⟩ 4242 false =
        (true, ⟨[], [(4242, Signal.sigterm)], some ⟨3000, [(4242, Signal.sigkill)]⟩⟩) ∧
      killProcess ⟨true, [], fun _ => true, fun _ _ => true, fun _ => false⟩ 4242 false =
        (true, ⟨[], [(4242, Signal.sigterm)], some ⟨3000, []⟩⟩) :=
  ⟨C2_graceful_escalation _ 4242 (by intro c hc; cases hc) rfl,
   C2_graceful_escalation _ 4242 (by intro c hc; cases hc) rfl⟩

/-- Filtering a key out of the map leaves the map without that key. -/
theorem mapHas_filter_ne (m : RegMap) (pid : Nat) :
    mapHas (m.filter (fun kv => kv.1 ≠ pid)) pid = false := by
  unfold mapHas
  rw [List.any_eq_false]
  intro kv hkv
  have h := (List.mem_filter.mp hkv).2
  simp only [decide_eq_true_eq] at h
  simp [h]

/-- C9: unregister never throws (it is a total function of the state); on
an absent pid it is a no-op leaving the in-memory map and the persisted
store unchanged; on a present pid it removes exactly the entry with that
key and persists the pruned values; and a second call for the same pid
leaves the state of the first call unchanged. -/
theorem C9_unregister_noop_idempotent (st : RegState) (pid : Nat) :
    (mapHas st.mem pid = false → unregister st pid = st) ∧
      (mapHas st.mem pid = true →
        (unregister st pid).mem = st.mem.filter (fun kv => kv.1 ≠ pid) ∧
          (unregister st pid).store = persist (st.mem.filter (fun kv => kv.1 ≠ pid))) ∧
      unregister (unregister st pid) pid = unregister st pid := by
  refine ⟨fun h => ?_, fun h => ?_, ?_⟩
  · simp [unregister, h]
  · simp [unregister, h]
  · by_cases h : mapHas st.mem pid = true
    · have h2 := mapHas_filter_ne st.mem pid
      simp [unregister, h, h2]
    · have hb : mapHas st.mem pid = false := by
        cases hv : mapHas st.mem pid
        · rfl
        · exact absurd hv h
      simp [unregister, hb]

/-- C9 witness: a concrete one-entry registry; unregistering an absent
pid changes nothing, unregistering the present pid removes it and
persists, and the repeated call is a no-op. -/
theorem C9_unregister_noop_idempotent_witness :
    (unregister ⟨[(5, ⟨5, "/w/app", "app", ProcessType.editor, "editor /w/app", 1, none⟩)],
        [⟨5, "/w/app", "app", ProcessType.editor, "editor /w/app", 1, none⟩]⟩ 7 =
      ⟨[(5, ⟨5, "/w/app", "app", ProcessType.editor, "editor /w/app", 1, none⟩)],
        [⟨5, "/w/app", "app", ProcessType.editor, "editor /w/app", 1, none⟩]⟩) ∧
      (unregister ⟨[(5, ⟨5, "/w/app", "app", ProcessType.editor, "editor /w/app", 1, none⟩)],
          [⟨5, "/w/app", "app", ProcessType.editor, "editor /w/app", 1, none⟩]⟩ 5).mem = [] :=
  ⟨(C9_unregister_noop_idempotent
      ⟨[(5, ⟨5, "/w/app", "app", ProcessType.editor, "editor /w/app", 1, none⟩)],
        [⟨5, "/w/app", "app", ProcessType.editor, "editor /w/app", 1, none⟩]⟩ 7).1 (by decide),
   ((C9_unregister_noop_idempotent
      ⟨[(5, ⟨5, "/w/app", "app", ProcessType.editor, "editor /w/app", 1, none⟩)],
        [⟨5, "/w/app", "app", ProcessType.editor, "editor /w/app", 1, none⟩]⟩ 5).2.1
      (by decide)).1.trans (by decide)⟩

/-- Map.set with a fresh key appends the binding. -/
theorem mapSet_fresh (m : RegMap) (k : Nat) (v : ProcessInfo)
    (h : mapHas m k = false) : mapSet m k v = m ++ [(k, v)] := by
  simp [mapSet, h]

/-- Values of the cleanup fold: when the stored pids are pairwise
distinct and fresh for the accumulator, the fold appends exactly the
alive entries, in order and unchanged. -/
theorem registryFold_values (table : List OsProc) (stored : List ProcessInfo) :
    ∀ acc : RegMap,
      (stored.map (·.pid)).Nodup →
      (∀ p ∈ stored, mapHas acc p.pid = false) →
      mapValues (stored.foldl
          (fun m p => if isProcessAlive table p.pid then mapSet m p.pid p else m) acc)
        = mapValues acc ++ stored.filter (fun p => isProcessAlive table p.pid) := by
  induction stored with
  | nil =>
    intro acc _ _
    simp
  | cons p t ih =>
    intro acc hN hD
    rw [List.map_cons, List.nodup_cons] at hN
    obtain ⟨hp, hNt⟩ := hN
    rw [List.foldl_cons, List.filter_cons]
    by_cases ha : isProcessAlive table p.pid = true
    · rw [if_pos ha, if_pos ha, mapSet_fresh acc p.pid p (hD p (List.mem_cons_self p t))]
      rw [ih (acc ++ [(p.pid, p)]) hNt ?_]
      · simp [mapValues]
      · intro q hq
        have hq1 : mapHas acc q.pid = false := hD q (List.mem_cons_of_mem p hq)
        have hq2 : p.pid ≠ q.pid := by
          intro hcontra
          exact hp (hcontra ▸ List.mem_map_of_mem (·.pid) hq)
        unfold mapHas at hq1 ⊢
        rw [List.any_append, hq1]
        simp [hq2]
    · rw [if_neg ha, if_neg ha]
      exact ih acc hNt (fun q hq => hD q (List.mem_cons_of_mem p hq))

/-- C6: for a persisted entry set with pairwise-distinct pids (the shape
the pid-keyed registry store always has) and any OS process table,
construction keeps exactly the entries whose pid is present in the
table, unchanged and in order, and persists that pruned set back to the
store. -/
theorem C6_liveness_pruning (table : List OsProc) (stored : List ProcessInfo)
    (hN : (stored.map (·.pid)).Nodup) :
    mapValues (registryInit table stored).mem
        = stored.filter (fun p => isProcessAlive table p.pid) ∧
      (registryInit table stored).store
        = stored.filter (fun p => isProcessAlive table p.pid) := by
  have h := registryFold_values table stored [] hN (fun p _ => rfl)
  constructor
  · simp only [registryInit]
    simpa using h
  · simp only [registryInit, persist]
    simpa using h

/-- C6 witness: of two stored entries only pid 42 is alive; construction
keeps that entry unchanged and persists the pruned singleton. -/
theorem C6_liveness_pruning_witness :
    mapValues (registryInit [⟨42, 1, "code", "code /w/app"⟩]
        [⟨42, "/w/app", "app", ProcessType.editor, "code /w/app", 1, none⟩,
         ⟨9, "/w/app", "app", ProcessType.terminal, "npm run dev", 2, some 3000⟩]).mem
      = [⟨42, "/w/app", "app", ProcessType.editor, "code /w/app", 1, none⟩] :=
  (C6_liveness_pruning [⟨42, 1, "code", "code /w/app"⟩]
      [⟨42, "/w/app", "app", ProcessType.editor, "code /w/app", 1, none⟩,
       ⟨9, "/w/app", "app", ProcessType.terminal, "npm run dev", 2, some 3000⟩]
      (by decide)).1.trans (by decide)

/-- C3 counterexample: the command line "node :0000" contains a
four-digit ':<port>' pattern, which the source regex matches and parseInt
turns into port 0; port 0 is falsy in JS, so the listener-map port 3000
overrides it and the command-line match does not take precedence as the
claim states. -/
theorem C3_counterexample :
    extractCmdPort "node :0000" = some 0 ∧
      resolvePort [] [(1, [3000])] ⟨1, 0, "node", "node :0000"⟩ = some 3000 := by
  decide

/-- C3 amended: port resolution follows the fixed precedence — command
line pattern, then own pid in the listener map, then descendant walk —
with the caveat that a stage result that parses to port 0 (or an absent
first map port) is falsy and falls through to the next stage.  Stated
for the two overriding stages: a non-zero command-line match wins
regardless of the map, and with no (non-falsy) command-line match a
non-zero first map port wins. -/
theorem C3_port_resolution_precedence (table : List OsProc) (pm : PortMap) (proc : OsProc) :
    (∀ p, proc.cmd ≠ "" → extractCmdPort proc.cmd = some p → p ≠ 0 →
        resolvePort table pm proc = some p) ∧
      (∀ q qs, isFalsyPort (if proc.cmd ≠ "" then extractCmdPort proc.cmd else none) = true →
        pmLookup pm proc.pid = some (q :: qs) → q ≠ 0 →
        resolvePort table pm proc = some q) := by
  constructor
  · intro p hcmd hmatch hp
    have hfal : isFalsyPort (some p) = false := by
      cases p with
      | zero => exact absurd rfl hp
      | succ n => rfl
    simp [resolvePort, hcmd, hmatch, hfal]
  · intro q qs hfal hlook hq
    have hq2 : isFalsyPort (some q) = false := by
      cases q with
      | zero => exact absurd rfl hq
      | succ n => rfl
    simp only [ne_eq, ite_not] at hfal
    simp [resolvePort, hfal, hlook, hq2]

/-- C3 witness: both orderings of the precedence test — the command-line
port 5173 wins over a map binding to 3000, and with no command-line
pattern the map port 3000 is used. -/
theorem C3_port_resolution_precedence_witness :
    resolvePort [] [(1, [3000])] ⟨1, 0, "node", "vite :5173"⟩ = some 5173 ∧
      resolvePort [] [(2, [3000])] ⟨2, 0, "node", "node server.js"⟩ = some 3000 :=
  ⟨(C3_port_resolution_precedence [] [(1, [3000])] ⟨1, 0, "node", "vite :5173"⟩).1
      5173 (by decide) (by decide) (by decide),
   (C3_port_resolution_precedence [] [(2, [3000])] ⟨2, 0, "node", "node server.js"⟩).2
      3000 [] (by decide) (by decide) (by decide)⟩

/-- C4: for a process with no port-like pattern in its own command line
and no entry of its own in the listener map, resolution returns the
first port of the depth-first descendant walk (and none when no
descendant holds a port). -/
theorem C4_child_port_fallback (table : List OsProc) (pm : PortMap) (proc : OsProc)
    (h1 : extractCmdPort proc.cmd = none)
    (h2 : pmLookup pm proc.pid = none) :
    resolvePort table pm proc = (getChildPorts table.length table proc.pid pm).head? := by
  have hp1 : (if proc.cmd ≠ "" then extractCmdPort proc.cmd else none) = none := by
    split
    · exact h1
    · rfl
  simp only [resolvePort, hp1, h2, Option.isSome_none, Bool.and_false, Bool.false_eq_true,
    if_false, isFalsyPort, if_true]
  rcases hcp : getChildPorts table.length table proc.pid pm with _ | ⟨a, l⟩ <;> simp

/-- C4 witness: a wrapper process with no own port whose child is bound
to 8080 resolves to 8080. -/
theorem C4_child_port_fallback_witness :
    resolvePort [⟨7, 0, "npm", "npm run dev"⟩, ⟨8, 7, "node", "node x"⟩] [(8, [8080])]
        ⟨7, 0, "npm", "npm run dev"⟩ = some 8080 :=
  (C4_child_port_fallback [⟨7, 0, "npm", "npm run dev"⟩, ⟨8, 7, "node", "node x"⟩]
      [(8, [8080])] ⟨7, 0, "npm", "npm run dev"⟩ (by decide) (by decide)).trans (by decide)

/-- In a list of process records with pairwise-distinct pids, filtering
by the pid of a member yields exactly that member. -/
theorem filter_pid_eq_singleton (l : List ProcessInfo) (E : ProcessInfo)
    (hN : (l.map (·.pid)).Nodup) (hE : E ∈ l) :
    l.filter (fun e => e.pid == E.pid) = [E] := by
  induction l with
  | nil => cases hE
  | cons a t ih =>
    rw [List.map_cons, List.nodup_cons] at hN
    obtain ⟨hna, hnt⟩ := hN
    rcases List.mem_cons.mp hE with heq | hEt
    · rw [heq, List.filter_cons]
      simp only [beq_self_eq_true, if_true]
      have ht : t.filter (fun e => e.pid == a.pid) = [] := by
        rw [List.filter_eq_nil_iff]
        intro e het hbeq
        exact hna (beq_iff_eq.mp hbeq ▸ List.mem_map_of_mem (·.pid) het)
      rw [ht]
    · have hne : (a.pid == E.pid) = false := by
        rw [beq_eq_false_iff_ne]
        intro hcontra
        exact hna (hcontra ▸ List.mem_map_of_mem (·.pid) hEt)
      rw [List.filter_cons, hne]
      simp only [Bool.false_eq_true, if_false]
      exact ih hnt hEt

/-- C7: for a well-formed registry (entries keyed by their own pid, keys
pairwise distinct) holding a live entry E for the requested project, the
merged get-project-processes result contains exactly one entry with
E's pid, namely E itself — scanner duplicates of that pid are dropped,
so registry entries win the de-duplication. -/
theorem C7_merge_dedup_registry_wins (st : RegState) (table : List OsProc) (pm : PortMap)
    (avail : Bool) (cs : List DockerContainer) (pp pn : String) (now : Nat) (E : ProcessInfo)
    (hKV : ∀ kv ∈ st.mem, kv.1 = kv.2.pid)
    (hN : (st.mem.map (·.1)).Nodup)
    (hE : E ∈ mapValues st.mem)
    (hP : E.projectPath = pp)
    (hA : isProcessAlive table E.pid = true) :
    (getProjectProcesses st table pm avail cs pp pn now).filter (fun e => e.pid == E.pid)
      = [E] := by
  have hvals : ((mapValues st.mem).map (·.pid)).Nodup := by
    have heq : (mapValues st.mem).map (·.pid) = st.mem.map (·.1) := by
      rw [mapValues, List.map_map]
      exact List.map_congr_left (fun kv hkv => (hKV kv hkv).symm)
    rw [heq]
    exact hN
  have hvfilter : (mapValues st.mem).filter (fun e => e.pid == E.pid) = [E] :=
    filter_pid_eq_singleton (mapValues st.mem) E hvals hE
  have hEalive : E ∈ ((mapValues st.mem).filter
      (fun p => p.projectPath == pp)).filter (fun p => isProcessAlive table p.pid) := by
    rw [List.mem_filter, List.mem_filter]
    exact ⟨⟨hE, beq_iff_eq.mpr hP⟩, hA⟩
  have hsub : List.Sublist
      ((((mapValues st.mem).filter (fun p => p.projectPath == pp)).filter
        (fun p => isProcessAlive table p.pid)).filter (fun e => e.pid == E.pid))
      ((mapValues st.mem).filter (fun e => e.pid == E.pid)) :=
    List.Sublist.filter _ (((List.filter_sublist _).trans (List.filter_sublist _)))
  rw [hvfilter] at hsub
  have haliveT : (((mapValues st.mem).filter (fun p => p.projectPath == pp)).filter
        (fun p => isProcessAlive table p.pid)).filter (fun e => e.pid == E.pid) = [E] := by
    rcases List.sublist_singleton.mp hsub with hnil | hone
    · exfalso
      have : E ∈ (((mapValues st.mem).filter (fun p => p.projectPath == pp)).filter
          (fun p => isProcessAlive table p.pid)).filter (fun e => e.pid == E.pid) := by
        rw [List.mem_filter]
        exact ⟨hEalive, beq_self_eq_true _⟩
      rw [hnil] at this
      cases this
    · exact hone
  have hscan : ((scanProjectProcesses table pm avail cs pp pn now).filter
        (fun p => !((((mapValues st.mem).filter (fun p => p.projectPath == pp)).filter
          (fun p => isProcessAlive table p.pid)).map (·.pid)).contains p.pid)).filter
        (fun e => e.pid == E.pid) = [] := by
    rw [List.filter_eq_nil_iff]
    intro e he hbeq
    have h1 := (List.mem_filter.mp he).2
    have h2 : E.pid ∈ (((mapValues st.mem).filter (fun p => p.projectPath == pp)).filter
        (fun p => isProcessAlive table p.pid)).map (·.pid) :=
      List.mem_map_of_mem (·.pid) hEalive
    rw [← beq_iff_eq.mp hbeq] at h2
    rw [Bool.not_eq_true', ← Bool.not_eq_true] at h1
    exact h1 (List.elem_iff.mpr h2)
  simp only [getProjectProcesses, getByProject]
  rw [List.filter_append, haliveT, hscan, List.append_nil]

/-- C7 witness: a registry entry for pid 100 on the project, an OS table
containing the live pid 100 that the scanner also discovers; the merged
result has exactly one pid-100 entry, the registry's record. -/
theorem C7_merge_dedup_registry_wins_witness :
    (getProjectProcesses
        ⟨[(100, ⟨100, "/w/app", "app", ProcessType.editor, "editor /w/app", 5, none⟩)],
          [⟨100, "/w/app", "app", ProcessType.editor, "editor /w/app", 5, none⟩]⟩
        [⟨100, 0, "node", "node /w/app"⟩] [] false [] "/w/app" "app" 9).filter
        (fun e => e.pid == 100)
      = [⟨100, "/w/app", "app", ProcessType.editor, "editor /w/app", 5, none⟩] :=
  C7_merge_dedup_registry_wins
    ⟨[(100, ⟨100, "/w/app", "app", ProcessType.editor, "editor /w/app", 5, none⟩)],
      [⟨100, "/w/app", "app", ProcessType.editor, "editor /w/app", 5, none⟩]⟩
    [⟨100, 0, "node", "node /w/app"⟩] [] false [] "/w/app" "app" 9
    ⟨100, "/w/app", "app", ProcessType.editor, "editor /w/app", 5, none⟩
    (by decide) (by decide) (by decide) (by decide) (by decide)

/-- C8: a record is in the scan output exactly when it is a container
record or it was built from a table process satisfying BOTH candidate
conditions: a (non-empty) command line containing the project path, and
a development-tool pattern match on the name or command line.  In
particular a process satisfying only one of the two conditions
contributes nothing to the non-container results. -/
theorem C8_candidate_requires_both (table : List OsProc) (pm : PortMap) (avail : Bool)
    (cs : List DockerContainer) (pp pn : String) (now : Nat) (e : ProcessInfo) :
    e ∈ scanProjectProcesses table pm avail cs pp pn now ↔
      (∃ proc ∈ table, proc.cmd ≠ "" ∧ strIncludes proc.cmd pp = true ∧
          isDevServer proc = true ∧ e = mkScanEntry pp pn table pm now proc) ∨
        e ∈ scanDockerContainers avail cs pp pn now := by
  simp only [scanProjectProcesses, List.mem_append, List.mem_map, List.mem_filter,
    isCandidate, Bool.and_eq_true, decide_eq_true_eq]
  constructor
  · rintro (⟨proc, ⟨hmem, ⟨hne, hinc⟩, hdev⟩, hmk⟩ | hdk)
    · exact Or.inl ⟨proc, hmem, hne, hinc, hdev, hmk.symm⟩
    · exact Or.inr hdk
  · rintro (⟨proc, hmem, hne, hinc, hdev, hmk⟩ | hdk)
    · exact Or.inl ⟨proc, ⟨hmem, ⟨hne, hinc⟩, hdev⟩, hmk.symm⟩
    · exact Or.inr hdk

/-- C8 witness: a node process whose command contains the project path is
included (both conditions hold), via the backward direction of the
characterization at a concrete input. -/
theorem C8_candidate_requires_both_witness :
    (⟨9999, "/w/app", "app", ProcessType.terminal, "node /w/app/server.js", 3, some 4000⟩ :
        ProcessInfo)
      ∈ scanProjectProcesses [⟨9999, 1, "node", "node /w/app/server.js"⟩] [(9999, [4000])]
        false [] "/w/app" "app" 3 :=
  (C8_candidate_requires_both [⟨9999, 1, "node", "node /w/app/server.js"⟩] [(9999, [4000])]
      false [] "/w/app" "app" 3
      ⟨9999, "/w/app", "app", ProcessType.terminal, "node /w/app/server.js", 3, some 4000⟩).mpr
    (Or.inl ⟨⟨9999, 1, "node", "node /w/app/server.js"⟩,
      by decide, by decide, by decide, by decide, by decide⟩)

end Fulcrum
